import Mathlib

/-!
Shallow embedding of the RentryArchiver HTML-to-text renderer from
`src/main.py`, together with proofs about its rendering behaviour.

Python strings are modelled as `List Char`; BeautifulSoup DOM nodes as the
inductive `Node` (text nodes, and element nodes carrying a tag name, an
ordered attribute list and an ordered child list).  Every definition is a
direct transcription of the corresponding Python code; modelling choices for
library calls (regexes, `html.unescape`, BeautifulSoup searches) are recorded
in the doc comments.
-/

set_option autoImplicit false

namespace Rentry

/-- Python strings are modelled as lists of characters. -/
abbrev Str := List Char

/-- ASCII whitespace recognised by Python `str.strip()` and friends. -/
def isPyWs (c : Char) : Bool :=
  c == ' ' || c == '\t' || c == '\n' || c == '\r' || c == '\x0b' || c == '\x0c'

/-- Removal of trailing characters satisfying `p`, as in Python `rstrip`. -/
def dropTrailing (p : Char → Bool) : Str → Str
  | [] => []
  | c :: rest =>
    let r := dropTrailing p rest
    if r.isEmpty && p c then [] else c :: r

/-- Python `s.strip()` (ASCII whitespace model). -/
def pyStrip (s : Str) : Str := dropTrailing isPyWs (s.dropWhile isPyWs)

/-- Python `s.rstrip()`. -/
def pyRStrip (s : Str) : Str := dropTrailing isPyWs s

/-- Python `s.rstrip("\n")` (used on admonition body parts and nested lists). -/
def rstripNl (s : Str) : Str := dropTrailing (fun c => c == '\n') s

/-- Python `s.strip("\n")` as used in the blockquote branch. -/
def stripNlChars (s : Str) : Str :=
  dropTrailing (fun c => c == '\n') (s.dropWhile (fun c => c == '\n'))

/-- Python `sep.join(parts)`. -/
def joinWith (sep : Str) : List Str → Str
  | [] => []
  | [x] => x
  | x :: y :: rest => x ++ sep ++ joinWith sep (y :: rest)

/-- Characters treated as line breaks by Python `str.splitlines`. -/
def isLineBreakChar (c : Char) : Bool :=
  c == '\n' || c == '\r' || c == '\x0b' || c == '\x0c' ||
  c == '\x1c' || c == '\x1d' || c == '\x1e' || c == '\x85' ||
  c == '\u2028' || c == '\u2029'

/-- Worker for `splitlines`; `cur` is the current line accumulated in reverse. -/
def splitlinesGo : Str → Str → List Str
  | [], cur => if cur.isEmpty then [] else [cur.reverse]
  | '\r' :: '\n' :: rest, cur => cur.reverse :: splitlinesGo rest []
  | c :: rest, cur =>
    if isLineBreakChar c then cur.reverse :: splitlinesGo rest []
    else splitlinesGo rest (c :: cur)

/-- Python `s.splitlines()` (no kept line endings; no trailing empty line). -/
def splitlines (s : Str) : List Str := splitlinesGo s []

/-- Worker for `splitWs`. -/
def splitWsGo : Str → Str → List Str
  | [], cur => if cur.isEmpty then [] else [cur.reverse]
  | c :: rest, cur =>
    if isPyWs c then
      if cur.isEmpty then splitWsGo rest [] else cur.reverse :: splitWsGo rest []
    else splitWsGo rest (c :: cur)

/-- Whitespace split with no empty fields, as BeautifulSoup uses to turn the
`class` attribute string into a class list. -/
def splitWs (s : Str) : List Str := splitWsGo s []

/-- Normalisation `s.replace("\r\n", "\n").replace("\r", "\n")`. -/
def normNl : Str → Str
  | [] => []
  | '\r' :: '\n' :: rest => '\n' :: normNl rest
  | '\r' :: rest => '\n' :: normNl rest
  | c :: rest => c :: normNl rest

/-- Horizontal whitespace matched by the source's `WS_RE` regex `[ \t\r\f\v]+`. -/
def isHWs (c : Char) : Bool :=
  c == ' ' || c == '\t' || c == '\r' || c == '\x0c' || c == '\x0b'

/-- Worker for `collapseHWs`; `inRun` records whether the previous character
was part of a horizontal-whitespace run already replaced by one space. -/
def collapseHWsGo : Str → Bool → Str
  | [], _ => []
  | c :: rest, inRun =>
    if isHWs c then
      if inRun then collapseHWsGo rest true else ' ' :: collapseHWsGo rest true
    else c :: collapseHWsGo rest false

/-- The source's `WS_RE.sub(" ", line)` applied per line: every maximal run of
horizontal whitespace becomes a single space (newlines are untouched, so the
per-line loop of `_collapse_ws` is equivalent to one pass). -/
def collapseHWs (s : Str) : Str := collapseHWsGo s false

/-- The source's `_collapse_ws`. -/
def collapseWs (s : Str) : Str := collapseHWs (normNl s)

/-- Python `s.replace("\n", " ")`. -/
def mapNlToSpace (s : Str) : Str := s.map (fun c => if c == '\n' then ' ' else c)

/-- Python `s.replace("\n", "\\n")` from the table data-cell rendering. -/
def escNl : Str → Str
  | [] => []
  | c :: rest => if c == '\n' then '\\' :: 'n' :: escNl rest else c :: escNl rest

/-- Number of leading `' '` characters of a line. -/
def leadingSpaces : Str → Nat
  | [] => 0
  | c :: rest => if c = ' ' then leadingSpaces rest + 1 else 0

/-- Number of leading `'\n'` characters. -/
def leadingNl : Str → Nat
  | [] => 0
  | c :: rest => if c = '\n' then leadingNl rest + 1 else 0

/-- Do the first two characters exist and equal `'\n'`? -/
def twoNl : Str → Bool
  | a :: b :: _ => a == '\n' && b == '\n'
  | _ => false

/-- Does the string contain three consecutive newline characters? -/
def hasTriple : Str → Bool
  | a :: rest => (a == '\n' && twoNl rest) || hasTriple rest
  | [] => false

/-- Worker for `collapseRuns`; `k` counts the newlines of the current run that
have already been read (of which at most two were emitted). -/
def collapseRunsGo : Str → Nat → Str
  | [], _ => []
  | c :: rest, k =>
    if c = '\n' then
      if k < 2 then '\n' :: collapseRunsGo rest (k + 1) else collapseRunsGo rest (k + 1)
    else c :: collapseRunsGo rest 0

/-- The source's `re.sub(r"\n{3,}", "\n\n", raw)`: each maximal run of three or
more newlines is replaced by exactly two, i.e. every run of `k` newlines is
emitted as `min k 2` newlines. -/
def collapseRuns (s : Str) : Str := collapseRunsGo s 0

/-- The final normalisation of `archive`:
`re.sub(r"\n{3,}", "\n\n", raw).strip() + "\n"`. -/
def finalizeText (raw : Str) : Str := pyStrip (collapseRuns raw) ++ "\n".toList

/-- Lower-casing, as in Python `str.lower()` on tag names. -/
def lowerStr (s : Str) : Str := s.map Char.toLower

/-- Decimal digit character, as produced by Python `str(int)`. -/
def digitChar (n : Nat) : Char := Char.ofNat (48 + n)

/-- Fuel-driven decimal rendering worker (the fuel `n + 1` always suffices). -/
def natStrGo : Nat → Nat → Str
  | 0, _ => []
  | fuel + 1, n =>
    if n < 10 then [digitChar n]
    else natStrGo fuel (n / 10) ++ [digitChar (n % 10)]

/-- Python `str(n)` for a non-negative integer. -/
def natStr (n : Nat) : Str := natStrGo (n + 1) n

/-- Substring test (used for BeautifulSoup's per-class lambda filters). -/
def strContains (s pat : Str) : Bool := s.tails.any (fun t => pat.isPrefixOf t)

/-- Case-insensitive literal prefix match; returns the remainder on success. -/
def stripPrefixCI (pat : String) (s : Str) : Option Str :=
  if lowerStr (s.take pat.length) = pat.toList then some (s.drop pat.length) else none

/-- A BeautifulSoup DOM node: a `NavigableString` or a `Tag` with a name, an
ordered attribute list and ordered children. -/
inductive Node where
  | text (s : Str)
  | elem (name : Str) (attrs : List (Str × Str)) (children : List Node)

/-- Is this node a `Tag`? -/
def isTag : Node → Bool
  | .elem _ _ _ => true
  | .text _ => false

/-- Tag name (`""` for text nodes, which never reach name dispatch). -/
def nameOf : Node → Str
  | .text _ => []
  | .elem n _ _ => n

/-- Attribute list of a node. -/
def attrsOf : Node → List (Str × Str)
  | .text _ => []
  | .elem _ a _ => a

/-- Ordered children of a node. -/
def childrenOf : Node → List Node
  | .text _ => []
  | .elem _ _ cs => cs

/-- `node.get(key)`: first attribute with the given name, if any. -/
def getAttr (n : Node) (k : Str) : Option Str :=
  ((attrsOf n).find? (fun p => p.1 == k)).map (fun p => p.2)

/-- `node.get(key) or ""` / `node.get(key, "")`. -/
def getAttrD (n : Node) (k : Str) : Str := (getAttr n k).getD []

/-- `node.has_attr(key)`. -/
def hasAttr (n : Node) (k : Str) : Bool := (attrsOf n).any (fun p => p.1 == k)

/-- `node.get("class") or []`: BeautifulSoup splits the `class` attribute on
whitespace into a list of class tokens. -/
def classesOf (n : Node) : List Str := splitWs (getAttrD n "class".toList)

/-- A `Tag` with exactly the given name. -/
def isElemNamed (n : Node) (nm : Str) : Bool := isTag n && nameOf n == nm

/-- The source's `_is_all_whitespace_node`. -/
def isAllWsNode : Node → Bool
  | .text s => (pyStrip s).isEmpty
  | .elem _ _ _ => false

mutual

/-- Structural node equality (models identity comparisons of parsed nodes). -/
def nodeBEq : Node → Node → Bool
  | .text a, .text b => a == b
  | .elem n1 a1 c1, .elem n2 a2 c2 => n1 == n2 && a1 == a2 && nodesBEq c1 c2
  | _, _ => false

/-- Pointwise `nodeBEq` on lists. -/
def nodesBEq : List Node → List Node → Bool
  | [], [] => true
  | a :: l1, b :: l2 => nodeBEq a b && nodesBEq l1 l2
  | _, _ => false

end

instance : BEq Node := ⟨nodeBEq⟩

mutual

/-- Strict descendants of a node in document (preorder) order — the order in
which BeautifulSoup `find` / `find_all` / `select_one` visit candidates. -/
def descendants : Node → List Node
  | .text _ => []
  | .elem _ _ cs => descList cs

/-- Descendants of a node list: each node followed by its own descendants. -/
def descList : List Node → List Node
  | [] => []
  | c :: rest => c :: (descendants c ++ descList rest)

end

mutual

/-- All `NavigableString` contents below a node, in document order. -/
def textParts : Node → List Str
  | .text s => [s]
  | .elem _ _ cs => textPartsList cs

/-- `textParts` over a node list. -/
def textPartsList : List Node → List Str
  | [] => []
  | c :: rest => textParts c ++ textPartsList rest

end

/-- BeautifulSoup `node.get_text(sep)`: all strings joined with `sep`. -/
def getText (sep : Str) (n : Node) : Str := joinWith sep (textParts n)

/-- The render context `_Ctx` of the source. -/
structure Ctx where
  in_pre : Bool := false
  list_depth : Nat := 0
  in_heading : Bool := false
  heading_id_level : List (Str × Nat) := []

/-- Python `dict` assignment `m[k] = v` (last write wins, order immaterial for
lookups). -/
def dictSet (m : List (Str × Nat)) (k : Str) (v : Nat) : List (Str × Nat) :=
  if m.any (fun p => p.1 == k) then
    m.map (fun p => if p.1 == k then (k, v) else p)
  else m ++ [(k, v)]

/-- Python `dict.get`. -/
def dictGet (m : List (Str × Nat)) (k : Str) : Option Nat :=
  (m.find? (fun p => p.1 == k)).map (fun p => p.2)

/-- Attempted match of the regex `text-align\s*:\s*(left|center|right)\b`
(case-insensitive) at one position: the word must not be followed by a word
character.  Returns the lower-cased captured group. -/
def alignMatchAt (s : Str) : Option Str :=
  match stripPrefixCI "text-align" s with
  | none => none
  | some r1 =>
    match r1.dropWhile isPyWs with
    | ':' :: r3 =>
      let r4 := r3.dropWhile isPyWs
      let tryWord := fun (w : String) =>
        match stripPrefixCI w r4 with
        | none => none
        | some rest =>
          match rest with
          | [] => some w.toList
          | c :: _ => if c.isAlphanum || c == '_' then none else some w.toList
      match tryWord "left" with
      | some w => some w
      | none =>
        match tryWord "center" with
        | some w => some w
        | none => tryWord "right"
    | _ => none

/-- `ALIGN_STYLE_RE.search`: try the pattern at every position, left to right. -/
def alignSearch : Str → Option Str
  | [] => none
  | c :: rest =>
    match alignMatchAt (c :: rest) with
    | some w => some w
    | none => alignSearch rest

/-- Attempted match of `color\s*:\s*([^;]+)` (case-insensitive) at a position.
When the only way to complete `[^;]+` is by giving back whitespace taken by
`\s*`, the Python regex still matches but the group strips to nothing; that
case is reported here as a matched, whitespace-only group. -/
def colorMatchAt (s : Str) : Option Str :=
  match stripPrefixCI "color" s with
  | none => none
  | some r1 =>
    match r1.dropWhile isPyWs with
    | ':' :: r3 =>
      let grp := (r3.dropWhile isPyWs).takeWhile (fun c => c != ';')
      if !grp.isEmpty then some grp
      else
        match r3 with
        | c :: _ => if isPyWs c then some [c] else none
        | [] => none
    | _ => none

/-- `re.search` for the color pattern: first matching position wins. -/
def colorSearch : Str → Option Str
  | [] => none
  | c :: rest =>
    match colorMatchAt (c :: rest) with
    | some g => some g
    | none => colorSearch rest

/-- The source's `_detect_cell_align`. -/
def detectCellAlign (cell : Node) : Option Str :=
  if !isTag cell then none
  else
    match alignSearch (getAttrD cell "style".toList) with
    | some a => some a
    | none =>
      let alignAttr := lowerStr (pyStrip (getAttrD cell "align".toList))
      if alignAttr == "left".toList || alignAttr == "center".toList ||
          alignAttr == "right".toList then some alignAttr
      else
        let cls := classesOf cell
        if cls.contains "md-center".toList then some "center".toList
        else if cls.contains "md-right".toList then some "right".toList
        else none

/-- Model of the Python standard library's `html.unescape`, restricted to the
basic named and numeric entities that can appear in the clipboard widget's
`value` attribute; unknown sequences pass through unchanged. -/
def unescapeGo : Str → Str
  | [] => []
  | '&' :: 'a' :: 'm' :: 'p' :: ';' :: rest => '&' :: unescapeGo rest
  | '&' :: 'l' :: 't' :: ';' :: rest => '<' :: unescapeGo rest
  | '&' :: 'g' :: 't' :: ';' :: rest => '>' :: unescapeGo rest
  | '&' :: 'q' :: 'u' :: 'o' :: 't' :: ';' :: rest => '"' :: unescapeGo rest
  | '&' :: 'a' :: 'p' :: 'o' :: 's' :: ';' :: rest => '\'' :: unescapeGo rest
  | '&' :: '#' :: '3' :: '9' :: ';' :: rest => '\'' :: unescapeGo rest
  | '&' :: '#' :: '3' :: '4' :: ';' :: rest => '"' :: unescapeGo rest
  | c :: rest => c :: unescapeGo rest

mutual

/-- The source's `_render_inlines`: inline rendering of one node. -/
def renderInlines (node : Node) (ctx : Ctx) : Str :=
  match node with
  | .text s => if ctx.in_pre then s else mapNlToSpace (collapseWs s)
  | .elem rawName attrs children =>
    let nd := Node.elem rawName attrs children
    let name := lowerStr rawName
    let classes := classesOf nd
    if name == "br".toList then "\n".toList
    else if name == "a".toList && classes.contains "headerlink".toList then []
    else if name == "b".toList || name == "strong".toList then
      "**".toList ++ pyStrip (renderInlinesList children ctx) ++ "**".toList
    else if name == "i".toList || name == "em".toList then
      "*".toList ++ pyStrip (renderInlinesList children ctx) ++ "*".toList
    else if name == "s".toList || name == "del".toList then
      "~~".toList ++ pyStrip (renderInlinesList children ctx) ++ "~~".toList
    else if name == "mark".toList then
      "==".toList ++ pyStrip (renderInlinesList children ctx) ++ "==".toList
    else if name == "code".toList then
      "`".toList ++ pyStrip (renderInlinesList children ctx) ++ "`".toList
    else if name == "span".toList && classes.contains "md-align".toList then
      let inner := pyStrip (renderInlinesList children ctx)
      if ctx.in_heading then inner
      else if classes.contains "md-center".toList then
        "-> ".toList ++ inner ++ " <-".toList
      else if classes.contains "md-right".toList then
        "-> ".toList ++ inner ++ " ->".toList
      else inner
    else if name == "span".toList && classes.contains "color-change".toList then
      let style := getAttrD nd "style".toList
      let color := match colorSearch style with
        | some g => pyStrip g
        | none => []
      let inner := pyStrip (renderInlinesList children ctx)
      if color.isEmpty then inner
      else "%".toList ++ color ++ "%".toList ++ inner ++ "%%".toList
    else if name == "span".toList && classes.contains "spoiler".toList then
      "||".toList ++ pyStrip (renderInlinesList children ctx) ++ "||".toList
    else if name == "a".toList then
      let href := getAttrD nd "href".toList
      let text := pyStrip (renderInlinesList children ctx)
      if !text.isEmpty && !href.isEmpty && text == href then href
      else if text.isEmpty then href
      else "[".toList ++ text ++ "](".toList ++ href ++ ")".toList
    else if name == "img".toList then
      "![".toList ++ getAttrD nd "alt".toList ++ "](".toList ++
        getAttrD nd "src".toList ++ ")".toList
    else renderInlinesList children ctx

/-- Inline rendering of a node list (the body of `_render_children_inlines`). -/
def renderInlinesList (cs : List Node) (ctx : Ctx) : Str :=
  match cs with
  | [] => []
  | c :: rest => renderInlines c ctx ++ renderInlinesList rest ctx

end

/-- The source's `_render_children_inlines`. -/
def renderChildrenInlines (n : Node) (ctx : Ctx) : Str :=
  renderInlinesList (childrenOf n) ctx

/-- The source's `_unwrap_header_text`: the children of a heading minus any
`a.headerlink` anchors (note: the tag-name comparison is not lower-cased
there). -/
def unwrapHeaderText (h : Node) : List Node :=
  (childrenOf h).filter (fun c =>
    !(isTag c && nameOf c == "a".toList &&
      (classesOf c).contains "headerlink".toList))

/-- The source's `_strip_blank_lines`. -/
def stripBlankLines (ls : List Str) : List Str :=
  ((ls.dropWhile (fun l => (pyStrip l).isEmpty)).reverse.dropWhile
    (fun l => (pyStrip l).isEmpty)).reverse

/-- The source's `_indent_lines`: pad each line with content by `n` spaces. -/
def indentLines (text : Str) (n : Nat) : Str :=
  joinWith "\n".toList ((splitlines text).map (fun line =>
    if (pyStrip line).isEmpty then line else List.replicate n ' ' ++ line))

/-- `tbl.find_all("tr")`: all `tr` descendants in document order. -/
def tableRows (tbl : Node) : List Node :=
  (descendants tbl).filter (fun d => isElemNamed d "tr".toList)

/-- `rows[0].find_all(["th", "td"], recursive=False)`: direct cell children. -/
def rowCells (r : Node) : List Node :=
  (childrenOf r).filter (fun c =>
    isElemNamed c "th".toList || isElemNamed c "td".toList)

/-- `r.find_all(["td", "th"], recursive=False)` for data rows (same cell set). -/
def dataRowCellNodes (r : Node) : List Node :=
  (childrenOf r).filter (fun c =>
    isElemNamed c "td".toList || isElemNamed c "th".toList)

/-- Rendered, stripped header cells of a table's first row. -/
def tableHeaders (tbl : Node) (ctx : Ctx) : List Str :=
  match tableRows tbl with
  | [] => []
  | r0 :: _ => (rowCells r0).map (fun c => pyStrip (renderChildrenInlines c ctx))

/-- The separator-row marker chosen for one header cell. -/
def alignMarker (c : Node) : Str :=
  let a := detectCellAlign c
  if a == some "center".toList then ":---:".toList
  else if a == some "right".toList then "---:".toList
  else "---".toList

/-- The separator-row markers, one per header cell. -/
def tableAligns (tbl : Node) : List Str :=
  match tableRows tbl with
  | [] => []
  | r0 :: _ => (rowCells r0).map alignMarker

/-- All rows after the first (the data rows of `_render_table`). -/
def tableDataRows (tbl : Node) : List Node :=
  match tableRows tbl with
  | [] => []
  | _ :: rest => rest

/-- Rendered cells of one data row: inline content, stripped, with every
newline replaced by the two-character text `\n`. -/
def dataRowVals (r : Node) (ctx : Ctx) : List Str :=
  (dataRowCellNodes r).map (fun c => escNl (pyStrip (renderChildrenInlines c ctx)))

/-- One physical table row: `"| " + " | ".join(cells) + " |"`. -/
def tableRowLine (cells : List Str) : Str :=
  "| ".toList ++ joinWith " | ".toList cells ++ " |".toList

/-- The rendered data-row lines of a table. -/
def dataRowStrings (tbl : Node) (ctx : Ctx) : List Str :=
  (tableDataRows tbl).map (fun r => tableRowLine (dataRowVals r ctx))

/-- The source's `_render_table`. -/
def renderTable (tbl : Node) (ctx : Ctx) : Str :=
  match tableRows tbl with
  | [] => []
  | _ :: _ =>
    joinWith "\n".toList
      (tableRowLine (tableHeaders tbl ctx) :: tableRowLine (tableAligns tbl) ::
        dataRowStrings tbl ctx) ++ "\n\n".toList

/-- The item marker `f"{idx+1}."` (ordered) or `"-"` (unordered). -/
def markerStr (ordered : Bool) (idx : Nat) : Str :=
  if ordered then natStr (idx + 1) ++ ".".toList else "-".toList

/-- Flushing the inline buffer of `_render_list_item` as a paragraph. -/
def flushPara (buffer : Str) : List Str :=
  if (pyStrip buffer).isEmpty then [] else [pyStrip buffer]

/-- The paragraph-grouping loop of `_render_list_item` over an item's
children: whitespace nodes and nested `ul`/`ol` children are skipped (the
latter are handled separately), `p` children flush the buffer and contribute
their own paragraph, and all other nodes accumulate inline text. -/
def buildParas (cs : List Node) (buffer : Str) (ctx : Ctx) : List Str :=
  match cs with
  | [] => flushPara buffer
  | c :: rest =>
    if isAllWsNode c then buildParas rest buffer ctx
    else if isTag c && (lowerStr (nameOf c) == "ul".toList ||
        lowerStr (nameOf c) == "ol".toList) then
      buildParas rest buffer ctx
    else if isTag c && lowerStr (nameOf c) == "p".toList then
      flushPara buffer ++
        (let ptxt := pyStrip (renderChildrenInlines c ctx)
         if ptxt.isEmpty then [] else [ptxt]) ++
        buildParas rest [] ctx
    else buildParas rest (buffer ++ renderInlines c ctx) ctx

/-- The admonition priority scan over the class list: first of the fixed
priority tuple present among the classes, defaulting to `note`. -/
def admonKind (classes : List Str) : Str :=
  ((["note".toList, "info".toList, "warning".toList, "danger".toList,
     "greentext".toList]).find? (fun k => classes.contains k)).getD "note".toList

mutual

/-- The source's `_render_block`: block-level dispatch on one node. -/
def renderBlock (node : Node) (ctx : Ctx) : Str :=
  match node with
  | .text s =>
    if (pyStrip s).isEmpty then []
    else pyStrip (renderInlines (Node.text s) ctx) ++ "\n\n".toList
  | .elem rawName attrs children =>
    let nd := Node.elem rawName attrs children
    let name := lowerStr rawName
    let classes := classesOf nd
    if name == "div".toList && classes.contains "toc".toList then
      let token :=
        match (descendants nd).find? (fun d =>
            isElemNamed d "a".toList && hasAttr d "href".toList) with
        | some firstA =>
          match getAttrD firstA "href".toList with
          | '#' :: hid =>
            match dictGet ctx.heading_id_level hid with
            | some lvl =>
              if 1 ≤ lvl && lvl ≤ 6 then
                if lvl == 1 then "[TOC]".toList
                else "[TOC".toList ++ natStr lvl ++ "]".toList
              else "[TOC]".toList
            | none => "[TOC]".toList
          | _ => "[TOC]".toList
        | none => "[TOC]".toList
      token ++ "\n\n".toList
    else if name == "div".toList && classes.contains "codeblock".toList then
      let clippy := (descendants nd).find? (fun d =>
        (classesOf d).contains "clippy".toList)
      match clippy with
      | some cl =>
        if hasAttr cl "value".toList then
          let raw := normNl (unescapeGo (getAttrD cl "value".toList))
          "```\n".toList ++ pyRStrip raw ++ "\n```\n\n".toList
        else
          "```\n".toList ++ pyRStrip (getText "\n".toList nd) ++ "\n```\n\n".toList
      | none =>
        "```\n".toList ++ pyRStrip (getText "\n".toList nd) ++ "\n```\n\n".toList
    else if name == "div".toList && classes.contains "admonition".toList then
      let kind := admonKind classes
      let titleTag := children.find? (fun c =>
        isElemNamed c "p".toList &&
        (classesOf c).contains "admonition-title".toList)
      let title := match titleTag with
        | some t => pyStrip (renderChildrenInlines t ctx)
        | none => []
      let bodyParts := admonBodyParts children ctx
      let body := pyStrip (joinWith "\n".toList
        (bodyParts.filter (fun p => !(pyStrip p).isEmpty)))
      let header := "!!! ".toList ++ kind ++
        (if title.isEmpty then [] else " ".toList ++ title)
      if body.isEmpty then header ++ "\n\n".toList
      else header ++ "\n".toList ++ indentLines body 4 ++ "\n\n".toList
    else if name == "hr".toList then "---\n\n".toList
    else if name == "h1".toList || name == "h2".toList || name == "h3".toList ||
        name == "h4".toList || name == "h5".toList || name == "h6".toList then
      let level := match name with
        | _ :: c :: _ => c.toNat - 48
        | _ => 0
      let aligned : Option Str :=
        if classes.contains "md-center".toList then some "center".toList
        else if classes.contains "md-right".toList then some "right".toList
        else
          match children.find? (fun c =>
              isTag c && lowerStr (nameOf c) == "span".toList &&
              (classesOf c).contains "md-align".toList) with
          | some child =>
            if (classesOf child).contains "md-center".toList then
              some "center".toList
            else if (classesOf child).contains "md-right".toList then
              some "right".toList
            else none
          | none => none
      let hctx : Ctx :=
        { in_pre := ctx.in_pre, list_depth := ctx.list_depth,
          in_heading := true, heading_id_level := ctx.heading_id_level }
      let text := pyStrip (renderInlinesList (unwrapHeaderText nd) hctx)
      let text := match aligned with
        | some a =>
          if a == "center".toList then "-> ".toList ++ text ++ " <-".toList
          else if a == "right".toList then "-> ".toList ++ text ++ " ->".toList
          else text
        | none => text
      List.replicate level '#' ++ " ".toList ++ text ++ "\n\n".toList
    else if name == "p".toList then
      let spanAligns := (descendants nd).filter (fun d =>
        isElemNamed d "span".toList &&
        (classesOf d).any (fun cl => strContains cl "md-align".toList))
      let onlyAlign := children.all (fun c =>
        isAllWsNode c ||
        (isTag c && nameOf c == "span".toList &&
         (classesOf c).contains "md-align".toList))
      if onlyAlign && !spanAligns.isEmpty then
        pyRStrip (joinWith "\n".toList
          (spanAligns.map (fun sp => pyStrip (renderInlines sp ctx)))) ++
          "\n\n".toList
      else
        let text := pyStrip (renderChildrenInlines nd ctx)
        if text.isEmpty then [] else text ++ "\n\n".toList
    else if name == "blockquote".toList then
      let inner := stripNlChars (renderBlocksList children ctx)
      let innerLines := stripBlankLines (splitlines inner)
      let out := joinWith "\n".toList (innerLines.map (fun ln =>
        if (pyStrip ln).isEmpty then ">".toList else "> ".toList ++ ln))
      out ++ "\n\n".toList
    else if name == "ul".toList || name == "ol".toList then
      pyRStrip (joinWith "\n".toList
        (renderListItems children 0 (name == "ol".toList) ctx)) ++ "\n\n".toList
    else if name == "div".toList && classes.contains "ntable-wrapper".toList then
      match (descendants nd).find? (fun d => isElemNamed d "table".toList) with
      | some tbl => renderTable tbl ctx
      | none => []
    else if name == "table".toList then renderTable nd ctx
    else if name == "pre".toList then
      "```\n".toList ++ pyRStrip (getText "\n".toList nd) ++ "\n```\n\n".toList
    else if name == "span".toList && classes.contains "clear-floats".toList then
      "!;\n\n".toList
    else renderBlocksList children ctx

/-- The source's `_render_children_blocks` over a child list: whitespace-only
text nodes are skipped, everything else is block-rendered and concatenated. -/
def renderBlocksList (cs : List Node) (ctx : Ctx) : Str :=
  match cs with
  | [] => []
  | c :: rest =>
    (if isAllWsNode c then [] else renderBlock c ctx) ++ renderBlocksList rest ctx

/-- The admonition body loop: every direct child that is neither the title
paragraph nor whitespace is block-rendered and right-stripped of newlines. -/
def admonBodyParts (cs : List Node) (ctx : Ctx) : List Str :=
  match cs with
  | [] => []
  | c :: rest =>
    if isElemNamed c "p".toList &&
        (classesOf c).contains "admonition-title".toList then
      admonBodyParts rest ctx
    else if isAllWsNode c then admonBodyParts rest ctx
    else rstripNl (renderBlock c ctx) :: admonBodyParts rest ctx

/-- The item loop of `_render_list` over the list's children: each direct
`li` child is rendered (with a fresh context at the current list depth) and
wrapped as a marker line at `4 * depth` spaces plus continuation lines at
`4 * depth + 2` spaces; the 1-based item index counts `li` children only. -/
def renderListItems (cs : List Node) (idx : Nat) (ordered : Bool) (ctx : Ctx) :
    List Str :=
  match cs with
  | [] => []
  | c :: rest =>
    if isElemNamed c "li".toList then
      let itemLines := renderListItemLines c
        { in_pre := false, list_depth := ctx.list_depth, in_heading := false,
          heading_id_level := ctx.heading_id_level }
      (match itemLines with
       | [] => []
       | first :: extras =>
         (List.replicate (4 * ctx.list_depth) ' ' ++ markerStr ordered idx ++
            " ".toList ++ first) ::
           extras.map (fun e =>
             if e.isEmpty then ([] : Str)
             else List.replicate (4 * ctx.list_depth + 2) ' ' ++ e)) ++
        renderListItems rest (idx + 1) ordered ctx
    else renderListItems rest idx ordered ctx

/-- The source's `_render_list_item`: paragraphs (with optional task-list
checkbox prefix) followed by the rendered nested lists. -/
def renderListItemLines (li : Node) (ctx : Ctx) : List Str :=
  match li with
  | .text _ => []
  | .elem nm attrs children =>
    let nd := Node.elem nm attrs children
    let classes := classesOf nd
    let isTask := classes.contains "task-list".toList
    let checkbox := (descendants nd).find? (fun d =>
      isElemNamed d "input".toList &&
      getAttr d "type".toList == some "checkbox".toList)
    let checked := match checkbox with
      | some cb => hasAttr cb "checked".toList
      | none => false
    let paras0 := buildParas children [] ctx
    let paras1 :=
      if isTask && checkbox.isSome then
        match paras0 with
        | p0 :: ps =>
          pyStrip ((if checked then "[x]".toList else "[ ]".toList) ++
            " ".toList ++ p0) :: ps
        | [] => [if checked then "[x]".toList else "[ ]".toList]
      else paras0
    let paragraphs := if paras1.isEmpty then [([] : Str)] else paras1
    let parLines := match paragraphs with
      | [] => []
      | p0 :: ps => splitlines p0 ++ ps.flatMap (fun p => ([] : Str) :: splitlines p)
    nestedListPass children parLines ctx

/-- The nested-list loop of `_render_list_item`: each direct `ul`/`ol` child
is rendered one level deeper, right-stripped of newlines and appended after a
blank separator line (unless the accumulated lines already end blank). -/
def nestedListPass (cs : List Node) (lines : List Str) (ctx : Ctx) : List Str :=
  match cs with
  | [] => lines
  | c :: rest =>
    match c with
    | .elem nm _ ccs =>
      if lowerStr nm == "ul".toList || lowerStr nm == "ol".toList then
        let nested := rstripNl (pyRStrip (joinWith "\n".toList
          (renderListItems ccs 0 (lowerStr nm == "ol".toList)
            { in_pre := false, list_depth := ctx.list_depth + 1,
              in_heading := false,
              heading_id_level := ctx.heading_id_level })) ++ "\n\n".toList)
        if nested.isEmpty then nestedListPass rest lines ctx
        else
          let lines' :=
            (match lines.getLast? with
             | some lastLine => if lastLine.isEmpty then lines else lines ++ [[]]
             | none => lines) ++ splitlines nested
          nestedListPass rest lines' ctx
      else nestedListPass rest lines ctx
    | .text _ => nestedListPass rest lines ctx

end

/-- The source's `_render_children_blocks` on a node. -/
def renderChildrenBlocks (n : Node) (ctx : Ctx) : Str :=
  renderBlocksList (childrenOf n) ctx

/-- The `lines` list built by `_render_list` for a list node. -/
def renderListLines (n : Node) (ctx : Ctx) : List Str :=
  renderListItems (childrenOf n) 0 (lowerStr (nameOf n) == "ol".toList) ctx

/-- The source's `_render_list`: joined item lines, right-stripped, plus the
block separator. -/
def renderList (n : Node) (ctx : Ctx) : Str :=
  pyRStrip (joinWith "\n".toList (renderListLines n ctx)) ++ "\n\n".toList

/-- Does the tag name match the heading regex `^h[1-6]$` (case-insensitive)? -/
def isHeadingName (nm : Str) : Bool :=
  ["h1".toList, "h2".toList, "h3".toList, "h4".toList, "h5".toList,
   "h6".toList].contains (lowerStr nm)

/-- `int(h.name[1])` for a matched heading name. -/
def headingLevelOfName (nm : Str) : Nat :=
  match nm with
  | _ :: c :: _ => c.toNat - 48
  | _ => 0

/-- The heading-id map construction of `archive`: scan all heading
descendants in document order; entries with a present, non-empty `id` are
recorded with their level, later duplicates overwriting earlier ones. -/
def buildHeadingMap (article : Node) : List (Str × Nat) :=
  (descendants article).foldl (fun m h =>
    if isHeadingName (nameOf h) then
      match getAttr h "id".toList with
      | some hid =>
        if hid.isEmpty then m else dictSet m hid (headingLevelOfName (nameOf h))
      | none => m
    else m) []

/-- Does `n` have the given class token? -/
def hasClass (n : Node) (cl : Str) : Bool := (classesOf n).contains cl

/-- The CSS selector `.render-metadata .entry-text article` on the document:
an `article` element that has an `.entry-text` ancestor which in turn has a
`.render-metadata` ancestor.  Candidates are taken in document order. -/
def selectOneCss (root : Node) : Option Node :=
  (descendants root).find? (fun a =>
    isElemNamed a "article".toList &&
    ((descendants root).any (fun e1 =>
      hasClass e1 "render-metadata".toList &&
      (descendants e1).any (fun e2 =>
        hasClass e2 "entry-text".toList &&
        (descendants e2).contains a))))

/-- The content-root fallback chain of `archive`:
`soup.select_one(".render-metadata .entry-text article") or
soup.find("article") or soup.find("main") or soup.body`. -/
def locateArticle (soup : Node) : Option Node :=
  match selectOneCss soup with
  | some a => some a
  | none =>
    match (descendants soup).find? (fun d => isElemNamed d "article".toList) with
    | some a => some a
    | none =>
      match (descendants soup).find? (fun d => isElemNamed d "main".toList) with
      | some m => some m
      | none => (descendants soup).find? (fun d => isElemNamed d "body".toList)

/-- The rendering part of `archive`, applied to a located content root:
build the heading-id map, block-render the root's children and normalise. -/
def archiveFrom (article : Node) : Str :=
  finalizeText (renderChildrenBlocks article
    { in_pre := false, list_depth := 0, in_heading := false,
      heading_id_level := buildHeadingMap article })

/-- The source's `archive` on a parsed document: `RuntimeError` when no
content root is found, otherwise the rendered text. -/
def archiveE (soup : Node) : Except Str Str :=
  match locateArticle soup with
  | none => Except.error "Could not locate main content area".toList
  | some article => Except.ok (archiveFrom article)

/-! Concrete documents used by the theorems below. -/

/-- The default render context (empty heading-id map, depth 0). -/
def ctx0 : Ctx := {}

/-- `<li>B</li>`. -/
def exLiB : Node := Node.elem "li".toList [] [Node.text "B".toList]

/-- `<ul><li>B</li></ul>`. -/
def exUlB : Node := Node.elem "ul".toList [] [exLiB]

/-- `<li>A<ul><li>B</li></ul></li>`. -/
def exLiA : Node := Node.elem "li".toList [] [Node.text "A".toList, exUlB]

/-- The nested-list scenario `<ul><li>A<ul><li>B</li></ul></li></ul>`. -/
def exUl : Node := Node.elem "ul".toList [] [exLiA]

/-- `<p class="admonition-title">Careful</p>`. -/
def exAdmonTitle : Node := Node.elem "p".toList
  [("class".toList, "admonition-title".toList)] [Node.text "Careful".toList]

/-- `<p>Body</p>`. -/
def exAdmonBody : Node := Node.elem "p".toList [] [Node.text "Body".toList]

/-- The admonition scenario
`<div class="admonition warning"><p class="admonition-title">Careful</p><p>Body</p></div>`. -/
def exAdmon : Node := Node.elem "div".toList
  [("class".toList, "admonition warning".toList)] [exAdmonTitle, exAdmonBody]

/-- An admonition container with no children at all. -/
def exAdmonEmpty : Node := Node.elem "div".toList
  [("class".toList, "admonition".toList)] []

/-- `<h2 id="x">Title</h2>`. -/
def exH2 : Node := Node.elem "h2".toList [("id".toList, "x".toList)]
  [Node.text "Title".toList]

/-- `<a href="#x">Title</a>`. -/
def exTocA : Node := Node.elem "a".toList [("href".toList, "#x".toList)]
  [Node.text "Title".toList]

/-- `<div class="toc"><a href="#x">Title</a></div>`. -/
def exToc : Node := Node.elem "div".toList [("class".toList, "toc".toList)]
  [exTocA]

/-- An article containing the `h2` and the table of contents. -/
def exArticle : Node := Node.elem "article".toList [] [exH2, exToc]

/-- A one-text-node table cell. -/
def exTd (s : String) : Node := Node.elem "td".toList [] [Node.text s.toList]

/-- A table whose header row has one cell but whose data row has two:
`<table><tr><td>a</td></tr><tr><td>b</td><td>c</td></tr></table>`. -/
def exTbl : Node := Node.elem "table".toList []
  [Node.elem "tr".toList [] [exTd "a"],
   Node.elem "tr".toList [] [exTd "b", exTd "c"]]

/-- `<th>a<br>b</th>`: a header cell containing a line break. -/
def exThBr : Node := Node.elem "th".toList []
  [Node.text "a".toList, Node.elem "br".toList [] [], Node.text "b".toList]

/-- `<td>c<br>d</td>`: a data cell containing a line break. -/
def exTdBr : Node := Node.elem "td".toList []
  [Node.text "c".toList, Node.elem "br".toList [] [], Node.text "d".toList]

/-- `<table><tr><th>a<br>b</th></tr><tr><td>c<br>d</td></tr></table>`. -/
def exTbl2 : Node := Node.elem "table".toList []
  [Node.elem "tr".toList [] [exThBr], Node.elem "tr".toList [] [exTdBr]]

/-- A document whose body is empty: `<html><body></body></html>`. -/
def exEmptySoup : Node := Node.elem "[document]".toList []
  [Node.elem "html".toList [] [Node.elem "body".toList [] []]]

/-- `<p>Hello <b>world</b></p>`. -/
def exP : Node := Node.elem "p".toList []
  [Node.text "Hello ".toList, Node.elem "b".toList [] [Node.text "world".toList]]

/-- A document holding only the `Hello world` paragraph. -/
def exSoupP : Node := Node.elem "[document]".toList []
  [Node.elem "html".toList [] [Node.elem "body".toList [] [exP]]]

/-- `<th style="text-align:right">N</th>`. -/
def exThR : Node := Node.elem "th".toList
  [("style".toList, "text-align:right".toList)] [Node.text "N".toList]

/-- `<table><tr><th style="text-align:right">N</th></tr><tr><td>1</td></tr></table>`. -/
def exTbl3 : Node := Node.elem "table".toList []
  [Node.elem "tr".toList [] [exThR], Node.elem "tr".toList [] [exTd "1"]]

/-! Structural lemmas about the string primitives. -/

/-- `dropTrailing` returns a prefix of its input. -/
theorem dropTrailing_prefix (p : Char → Bool) (l : Str) :
    ∃ t, l = dropTrailing p l ++ t := by
  induction l with
  | nil => exact ⟨[], rfl⟩
  | cons c rest ih =>
    obtain ⟨t, ht⟩ := ih
    simp only [dropTrailing]
    cases hc : (dropTrailing p rest).isEmpty && p c with
    | true => exact ⟨c :: rest, by simp⟩
    | false =>
      refine ⟨t, ?_⟩
      simp only [hc, Bool.false_eq_true, if_false, List.cons_append]
      exact congrArg (c :: ·) ht

/-- The last character kept by `dropTrailing` does not satisfy `p`. -/
theorem dropTrailing_getLast (p : Char → Bool) (l : Str) :
    dropTrailing p l = [] ∨
      ∃ c, (dropTrailing p l).getLast? = some c ∧ p c = false := by
  induction l with
  | nil => exact Or.inl rfl
  | cons a rest ih =>
    simp only [dropTrailing]
    cases hc : (dropTrailing p rest).isEmpty && p a with
    | true => exact Or.inl (by simp)
    | false =>
      right
      rcases ih with h0 | ⟨c, hlast, hpc⟩
      · refine ⟨a, ?_, ?_⟩
        · simp [h0]
        · rw [h0] at hc
          simpa using hc
      · have hne : dropTrailing p rest ≠ [] := by
          intro h
          rw [h] at hlast
          simp at hlast
        obtain ⟨d, ds, hd⟩ := List.exists_cons_of_ne_nil hne
        refine ⟨c, ?_, hpc⟩
        simp only [Bool.false_eq_true, if_false]
        rw [hd] at hlast ⊢
        rw [List.getLast?_cons_cons]
        exact hlast

/-- `dropTrailing` preserves the head character. -/
theorem dropTrailing_head (p : Char → Bool) (l : Str) (c : Char)
    (h : (dropTrailing p l).head? = some c) : l.head? = some c := by
  cases l with
  | nil => simp [dropTrailing] at h
  | cons a rest =>
    simp only [dropTrailing] at h
    cases hc : (dropTrailing p rest).isEmpty && p a with
    | true => rw [hc] at h; simp at h
    | false =>
      rw [hc] at h
      simp only [Bool.false_eq_true, if_false, List.head?_cons] at h
      simpa using h

/-- The head surviving `dropWhile` does not satisfy `p`. -/
theorem head_dropWhile (p : Char → Bool) (l : Str) (c : Char)
    (h : (l.dropWhile p).head? = some c) : p c = false := by
  induction l with
  | nil => simp at h
  | cons a rest ih =>
    rw [List.dropWhile_cons] at h
    by_cases hp : p a = true
    · rw [if_pos hp] at h
      exact ih h
    · rw [if_neg hp] at h
      simp only [List.head?_cons, Option.some.injEq] at h
      subst h
      simpa using hp

/-- `dropWhile` is the identity when the head does not satisfy `p`. -/
theorem dropWhile_eq_self (p : Char → Bool) (l : Str)
    (h : ∀ c, l.head? = some c → p c = false) : l.dropWhile p = l := by
  cases l with
  | nil => rfl
  | cons a rest =>
    rw [List.dropWhile_cons, if_neg]
    simp [h a rfl]

/-- Appending one dropped-class character does not change `dropTrailing`. -/
theorem dropTrailing_append_singleton (p : Char → Bool) (l : Str) (c : Char)
    (hc : p c = true) : dropTrailing p (l ++ [c]) = dropTrailing p l := by
  induction l with
  | nil => simp [dropTrailing, hc]
  | cons a rest ih =>
    have hstep : dropTrailing p ((a :: rest) ++ [c]) =
        if ((dropTrailing p (rest ++ [c])).isEmpty && p a) = true then []
        else a :: dropTrailing p (rest ++ [c]) := rfl
    rw [hstep, ih]
    rfl

/-- `dropTrailing` is the identity when the last character fails `p`. -/
theorem dropTrailing_eq_self (p : Char → Bool) (l : Str) (c : Char)
    (hlast : l.getLast? = some c) (hpc : p c = false) : dropTrailing p l = l := by
  induction l with
  | nil => simp at hlast
  | cons a rest ih =>
    cases rest with
    | nil =>
      simp only [List.getLast?_singleton, Option.some.injEq] at hlast
      subst hlast
      simp [dropTrailing, hpc]
    | cons b rest' =>
      rw [List.getLast?_cons_cons] at hlast
      have hr := ih hlast
      have hstep : dropTrailing p (a :: b :: rest') =
          if ((dropTrailing p (b :: rest')).isEmpty && p a) = true then []
          else a :: dropTrailing p (b :: rest') := rfl
      rw [hstep, hr]
      rfl

/-! Lemmas about newline runs. -/

/-- `twoNl` tests for at least two leading newlines. -/
theorem twoNl_iff (l : Str) : twoNl l = true ↔ 2 ≤ leadingNl l := by
  match l with
  | [] => simp [twoNl, leadingNl]
  | [a] =>
    by_cases ha : a = '\n' <;> simp [twoNl, leadingNl, ha]
  | a :: b :: t =>
    by_cases ha : a = '\n' <;> by_cases hb : b = '\n' <;>
      simp [twoNl, leadingNl, ha, hb]

/-- A triple-free tail of a triple-free cons. -/
theorem hasTriple_cons_false (a : Char) (l : Str)
    (h : hasTriple (a :: l) = false) : hasTriple l = false := by
  simp only [hasTriple, Bool.or_eq_false_iff] at h
  exact h.2

/-- A triple-free string has at most two leading newlines. -/
theorem leadingNl_le_two (l : Str) (h : hasTriple l = false) :
    leadingNl l ≤ 2 := by
  match l with
  | [] => simp [leadingNl]
  | a :: rest =>
    by_cases ha : a = '\n'
    · simp only [hasTriple, ha, Bool.or_eq_false_iff, Bool.and_eq_false_iff] at h
      have h2 : twoNl rest = false := by
        rcases h.1 with h' | h'
        · simp at h'
        · exact h'
      have : ¬ 2 ≤ leadingNl rest := by
        rw [← twoNl_iff, h2]
        simp
      simp only [leadingNl, ha, if_pos]
      omega
    · simp [leadingNl, ha]

/-- `twoNl` is monotone under appending on the right. -/
theorem twoNl_append (l1 l2 : Str) (h : twoNl l1 = true) :
    twoNl (l1 ++ l2) = true := by
  match l1 with
  | [] => simp [twoNl] at h
  | [a] => simp [twoNl] at h
  | a :: b :: t => simpa [twoNl] using h

/-- A prefix of a triple-free string is triple-free. -/
theorem hasTriple_append_left (l1 l2 : Str)
    (h : hasTriple (l1 ++ l2) = false) : hasTriple l1 = false := by
  induction l1 with
  | nil => rfl
  | cons a t ih =>
    rw [List.cons_append] at h
    simp only [hasTriple, Bool.or_eq_false_iff, Bool.and_eq_false_iff] at h ⊢
    refine ⟨?_, ih h.2⟩
    rcases h.1 with h' | h'
    · exact Or.inl h'
    · right
      cases h2 : twoNl t with
      | false => rfl
      | true => rw [twoNl_append t l2 h2] at h'; exact h'

/-- `dropWhile` preserves triple-freeness. -/
theorem hasTriple_dropWhile (p : Char → Bool) (l : Str)
    (h : hasTriple l = false) : hasTriple (l.dropWhile p) = false := by
  induction l with
  | nil => exact h
  | cons a rest ih =>
    rw [List.dropWhile_cons]
    by_cases hp : p a = true
    · rw [if_pos hp]
      exact ih (hasTriple_cons_false a rest h)
    · rw [if_neg hp]
      exact h

/-- `dropTrailing` preserves triple-freeness. -/
theorem hasTriple_dropTrailing (p : Char → Bool) (l : Str)
    (h : hasTriple l = false) : hasTriple (dropTrailing p l) = false := by
  obtain ⟨t, ht⟩ := dropTrailing_prefix p l
  rw [ht] at h
  exact hasTriple_append_left _ t h

/-- Appending one character to a triple-free string not ending in a newline
keeps it triple-free. -/
theorem hasTriple_append_singleton (l : Str) (c : Char)
    (h : hasTriple l = false) (hlast : l.getLast? ≠ some '\n') :
    hasTriple (l ++ [c]) = false := by
  induction l with
  | nil => simp [hasTriple, twoNl]
  | cons a rest ih =>
    rw [List.cons_append]
    simp only [hasTriple, Bool.or_eq_false_iff, Bool.and_eq_false_iff] at h ⊢
    constructor
    · match rest with
      | [] => right; simp [twoNl]
      | [b] =>
        right
        have hb : b ≠ '\n' := by
          intro hb
          apply hlast
          simp [hb]
        simp [twoNl, hb]
      | b1 :: b2 :: t =>
        rcases h.1 with h' | h'
        · exact Or.inl h'
        · right
          simpa [twoNl] using (by simpa [twoNl] using h' : _)
    · match rest with
      | [] => simp [hasTriple, twoNl]
      | b :: t =>
        apply ih (h.2)
        intro hl
        apply hlast
        rw [List.getLast?_cons_cons]
        exact hl

/-- `hasTriple` detects exactly the substrings of three newlines. -/
theorem hasTriple_iff (l : Str) :
    hasTriple l = true ↔ ∃ u v, l = u ++ '\n' :: '\n' :: '\n' :: v := by
  constructor
  · intro h
    induction l with
    | nil => simp [hasTriple] at h
    | cons a rest ih =>
      simp only [hasTriple, Bool.or_eq_true, Bool.and_eq_true] at h
      rcases h with ⟨ha, h2⟩ | h'
      · match rest, h2 with
        | b1 :: b2 :: t, h2 =>
          have hb : b1 = '\n' ∧ b2 = '\n' := by simpa [twoNl] using h2
          refine ⟨[], t, ?_⟩
          have ha' : a = '\n' := by simpa using ha
          simp [ha', hb.1, hb.2]
      · obtain ⟨u, v, huv⟩ := ih h'
        exact ⟨a :: u, v, by simp [huv]⟩
  · rintro ⟨u, v, rfl⟩
    induction u with
    | nil => simp [hasTriple, twoNl]
    | cons a u' ih =>
      rw [List.cons_append]
      simp only [hasTriple, Bool.or_eq_true]
      exact Or.inr ih

/-! Lemmas about the newline-run collapsing pass. -/

/-- Leading-newline budget of the collapser output. -/
theorem leadingNl_collapseRunsGo (l : Str) :
    ∀ k, min k 2 + leadingNl (collapseRunsGo l k) ≤ 2 := by
  induction l with
  | nil => intro k; simp [collapseRunsGo, leadingNl, Nat.min_le_right]
  | cons c rest ih =>
    intro k
    by_cases hc : c = '\n'
    · by_cases hk : k < 2
      · have := ih (k + 1)
        simp only [collapseRunsGo, hc, if_pos, hk, if_true, leadingNl]
        omega
      · have := ih (k + 1)
        simp only [collapseRunsGo, hc, if_pos, hk, if_false]
        omega
    · simp only [collapseRunsGo, hc, if_false, leadingNl]
      omega

/-- The collapser output never contains three consecutive newlines. -/
theorem hasTriple_collapseRunsGo (l : Str) :
    ∀ k, hasTriple (collapseRunsGo l k) = false := by
  induction l with
  | nil => intro k; rfl
  | cons c rest ih =>
    intro k
    by_cases hc : c = '\n'
    · by_cases hk : k < 2
      · simp only [collapseRunsGo, hc, if_pos, hk, if_true]
        have hlead := leadingNl_collapseRunsGo rest (k + 1)
        have h2 : twoNl (collapseRunsGo rest (k + 1)) = false := by
          cases h2 : twoNl (collapseRunsGo rest (k + 1)) with
          | false => rfl
          | true =>
            rw [twoNl_iff] at h2
            omega
        simp [hasTriple, h2, ih (k + 1)]
      · simp only [collapseRunsGo, hc, if_pos, hk, if_false]
        exact ih (k + 1)
    · simp only [collapseRunsGo, hc, if_false]
      simp [hasTriple, ih 0, hc]

/-- The collapser is the identity on triple-free input, as long as the
leading run plus the run context fits the budget. -/
theorem collapseRunsGo_eq_self (l : Str) :
    ∀ k, hasTriple l = false → leadingNl l + k ≤ 2 → collapseRunsGo l k = l := by
  induction l with
  | nil => intro k _ _; rfl
  | cons c rest ih =>
    intro k hT hL
    by_cases hc : c = '\n'
    · have hlead : leadingNl (c :: rest) = leadingNl rest + 1 := by
        simp [leadingNl, hc]
      have hk : k < 2 := by omega
      simp only [collapseRunsGo, hc, if_pos, hk, if_true]
      rw [ih (k + 1) (hasTriple_cons_false c rest hT) (by omega)]
    · simp only [collapseRunsGo, hc, if_false]
      rw [ih 0 (hasTriple_cons_false c rest hT)
        (by have := leadingNl_le_two rest (hasTriple_cons_false c rest hT); omega)]

/-- `collapseRuns` is the identity on triple-free strings. -/
theorem collapseRuns_eq_self (l : Str) (h : hasTriple l = false) :
    collapseRuns l = l :=
  collapseRunsGo_eq_self l 0 h
    (by have := leadingNl_le_two l h; omega)

/-! Lemmas about `pyStrip` and the final normalisation. -/

/-- The head of a stripped string is not whitespace. -/
theorem pyStrip_head (s : Str) (c : Char) (h : (pyStrip s).head? = some c) :
    isPyWs c = false := by
  unfold pyStrip at h
  exact head_dropWhile isPyWs s c (dropTrailing_head _ _ _ h)

/-- The last character of a stripped string is not whitespace. -/
theorem pyStrip_getLast (s : Str) :
    pyStrip s = [] ∨ ∃ c, (pyStrip s).getLast? = some c ∧ isPyWs c = false :=
  dropTrailing_getLast isPyWs _

/-- Stripping preserves triple-freeness. -/
theorem hasTriple_pyStrip (s : Str) (h : hasTriple s = false) :
    hasTriple (pyStrip s) = false :=
  hasTriple_dropTrailing _ _ (hasTriple_dropWhile _ _ h)

/-- A stripped string never ends in a newline. -/
theorem pyStrip_getLast_ne_nl (s : Str) :
    (pyStrip s).getLast? ≠ some '\n' := by
  rcases pyStrip_getLast s with h0 | ⟨c, hlast, hws⟩
  · rw [h0]
    simp
  · rw [hlast]
    intro h
    have hc : c = '\n' := by simpa using h
    rw [hc] at hws
    simp [isPyWs] at hws

/-- The output of `finalizeText` never contains three consecutive newlines. -/
theorem hasTriple_finalizeText (raw : Str) :
    hasTriple (finalizeText raw) = false := by
  have h1 : hasTriple (pyStrip (collapseRuns raw)) = false :=
    hasTriple_pyStrip _ (hasTriple_collapseRunsGo raw 0)
  exact hasTriple_append_singleton _ _ h1 (pyStrip_getLast_ne_nl _)

/-- Re-stripping after appending the final newline is a no-op. -/
theorem pyStrip_strip_append_nl (s : Str) :
    pyStrip (pyStrip s ++ ['\n']) = pyStrip s := by
  cases ht : pyStrip s with
  | nil => rfl
  | cons c t' =>
    have hc : isPyWs c = false := pyStrip_head s c (by rw [ht]; rfl)
    have hd : ((c :: t') ++ ['\n']).dropWhile isPyWs = (c :: t') ++ ['\n'] := by
      apply dropWhile_eq_self
      intro c' hc'
      simp only [List.cons_append, List.head?_cons, Option.some.injEq] at hc'
      rw [← hc']
      exact hc
    rcases pyStrip_getLast s with h0 | ⟨c', hl, hw⟩
    · rw [ht] at h0
      exact absurd h0 (by simp)
    · rw [ht] at hl
      rw [pyStrip, hd, dropTrailing_append_singleton isPyWs _ '\n' (by rfl)]
      exact dropTrailing_eq_self isPyWs _ _ hl hw

/-- C4: the final normalisation step (collapse runs of three or more
newlines to two, strip, append one newline) is idempotent: applying it to its
own output returns the same string. -/
theorem c4_finalize_idempotent (s : Str) :
    finalizeText (finalizeText s) = finalizeText s := by
  have hnl : ("\n".toList : Str) = ['\n'] := rfl
  have hcol : collapseRuns (finalizeText s) = finalizeText s :=
    collapseRuns_eq_self _ (hasTriple_finalizeText s)
  show pyStrip (collapseRuns (finalizeText s)) ++ "\n".toList = finalizeText s
  rw [hcol]
  show pyStrip (pyStrip (collapseRuns s) ++ "\n".toList) ++ "\n".toList =
    finalizeText s
  rw [hnl, pyStrip_strip_append_nl]
  rfl

/-! Lemmas about list indentation. -/

/-- Leading spaces across a replicated-space prefix. -/
theorem leadingSpaces_replicate_append (k : Nat) (s : Str) :
    leadingSpaces (List.replicate k ' ' ++ s) = k + leadingSpaces s := by
  induction k with
  | zero => simp
  | succ n ih =>
    rw [List.replicate_succ, List.cons_append]
    simp only [leadingSpaces, if_pos]
    omega

/-- Decimal digits are never spaces. -/
theorem digitChar_ne_space (d : Nat) (hd : d < 10) : digitChar d ≠ ' ' := by
  interval_cases d <;> decide

/-- The decimal worker yields nothing or a digit-headed string. -/
theorem natStrGo_head (fuel : Nat) :
    ∀ n, natStrGo fuel n = [] ∨
      ∃ d t, d < 10 ∧ natStrGo fuel n = digitChar d :: t := by
  induction fuel with
  | zero => intro n; exact Or.inl rfl
  | succ f ih =>
    intro n
    by_cases h : n < 10
    · exact Or.inr ⟨n, [], h, by simp [natStrGo, h]⟩
    · rcases ih (n / 10) with h0 | ⟨d, t, hd, ht⟩
      · refine Or.inr ⟨n % 10, [], Nat.mod_lt _ (by omega), ?_⟩
        simp [natStrGo, h, h0]
      · refine Or.inr ⟨d, t ++ [digitChar (n % 10)], hd, ?_⟩
        simp [natStrGo, h, ht]

/-- Item markers start with a non-space character. -/
theorem leadingSpaces_marker (ordered : Bool) (idx : Nat) (s : Str) :
    leadingSpaces (markerStr ordered idx ++ s) = 0 := by
  cases ordered with
  | false => simp [markerStr, leadingSpaces]
  | true =>
    rcases natStrGo_head (idx + 2) (idx + 1) with h0 | ⟨d, t, hd, ht⟩
    · simp [markerStr, natStr, h0, leadingSpaces]
    · simp [markerStr, natStr, ht, leadingSpaces, digitChar_ne_space d hd]

/-- Shape of every line produced by the item loop of `_render_list`: blank,
or a marker line indented exactly `4 * depth`, or a continuation line
indented at least `4 * depth + 2`. -/
theorem renderListItems_indent (cs : List Node) (idx : Nat) (ordered : Bool)
    (ctx : Ctx) (l : Str) (hl : l ∈ renderListItems cs idx ordered ctx) :
    l = [] ∨
      (leadingSpaces l = 4 * ctx.list_depth ∧
        ∃ i rest, l = List.replicate (4 * ctx.list_depth) ' ' ++
          markerStr ordered i ++ " ".toList ++ rest) ∨
      4 * ctx.list_depth + 2 ≤ leadingSpaces l := by
  induction cs generalizing idx with
  | nil => simp [renderListItems] at hl
  | cons c rest ih =>
    rw [renderListItems] at hl
    by_cases hli : isElemNamed c "li".toList = true
    · rw [if_pos hli] at hl
      cases hlines : renderListItemLines c
          { in_pre := false, list_depth := ctx.list_depth, in_heading := false,
            heading_id_level := ctx.heading_id_level } with
      | nil =>
        rw [hlines] at hl
        simp only [List.nil_append] at hl
        exact ih (idx + 1) hl
      | cons first extras =>
        rw [hlines] at hl
        simp only [List.cons_append, List.mem_cons, List.mem_append,
          List.mem_map] at hl
        rcases hl with hmark | hrest
        · refine Or.inr (Or.inl ⟨?_, idx, first, by rw [hmark]⟩)
          rw [hmark, List.append_assoc, List.append_assoc,
            leadingSpaces_replicate_append, leadingSpaces_marker]
          omega
        · rcases hrest with ⟨e, _, hfe⟩ | hmem
          · by_cases he : e.isEmpty = true
            · rw [← hfe, if_pos he]
              exact Or.inl rfl
            · rw [← hfe, if_neg he]
              refine Or.inr (Or.inr ?_)
              rw [leadingSpaces_replicate_append]
              omega
          · exact ih (idx + 1) hmem
    · rw [if_neg hli] at hl
      exact ih idx hl

/-! Lemmas about table rows and escaped newlines. -/

/-- The escaped cell text contains no newline. -/
theorem escNl_no_nl (s : Str) : '\n' ∉ escNl s := by
  induction s with
  | nil => simp [escNl]
  | cons c rest ih =>
    by_cases hc : (c == '\n') = true
    · rw [escNl, if_pos hc]
      simp only [List.mem_cons, not_or]
      exact ⟨by decide, by decide, ih⟩
    · rw [escNl, if_neg hc]
      simp only [List.mem_cons, not_or]
      refine ⟨?_, ih⟩
      intro he
      apply hc
      rw [← he]
      rfl

/-- Joining newline-free parts with a newline-free separator stays
newline-free. -/
theorem joinWith_no_nl (sep : Str) (ls : List Str) (hsep : '\n' ∉ sep)
    (h : ∀ part, part ∈ ls → '\n' ∉ part) : '\n' ∉ joinWith sep ls := by
  induction ls with
  | nil => simp [joinWith]
  | cons x rest ih =>
    cases rest with
    | nil => simpa [joinWith] using h x (by simp)
    | cons y t =>
      simp only [joinWith, List.append_assoc, List.mem_append]
      intro hmem
      rcases hmem with hx | hs | hj
      · exact h x (by simp) hx
      · exact hsep hs
      · exact ih (fun part hp => h part (List.mem_cons_of_mem x hp)) hj

/-- A rendered table row built from newline-free cells is newline-free. -/
theorem tableRowLine_no_nl (cells : List Str)
    (h : ∀ cell, cell ∈ cells → '\n' ∉ cell) : '\n' ∉ tableRowLine cells := by
  simp only [tableRowLine, List.append_assoc, List.mem_append]
  intro hmem
  rcases hmem with hx | hj | hs
  · simp at hx
  · exact joinWith_no_nl _ cells (by decide) h hj
  · simp at hs

/-- Every rendered data row of a table is free of physical newlines. -/
theorem dataRowStrings_no_nl (tbl : Node) (ctx : Ctx) (row : Str)
    (h : row ∈ dataRowStrings tbl ctx) : '\n' ∉ row := by
  simp only [dataRowStrings, List.mem_map] at h
  obtain ⟨r, _, hr⟩ := h
  rw [← hr]
  apply tableRowLine_no_nl
  intro cell hc
  simp only [dataRowVals, List.mem_map] at hc
  obtain ⟨cn, _, hcn⟩ := hc
  rw [← hcn]
  exact escNl_no_nl _

/-! Branch-reduction lemmas for `renderBlock`. -/

/-- On a `div.toc` node, `renderBlock` reduces to the table-of-contents
token computation of the source. -/
theorem renderBlock_toc (attrs : List (Str × Str)) (children : List Node)
    (ctx : Ctx)
    (htoc : (classesOf (Node.elem "div".toList attrs children)).contains
      "toc".toList = true) :
    renderBlock (Node.elem "div".toList attrs children) ctx =
      (match (descendants (Node.elem "div".toList attrs children)).find?
          (fun d => isElemNamed d "a".toList && hasAttr d "href".toList) with
       | some firstA =>
         match getAttrD firstA "href".toList with
         | '#' :: hid =>
           match dictGet ctx.heading_id_level hid with
           | some lvl =>
             if 1 ≤ lvl && lvl ≤ 6 then
               if lvl == 1 then "[TOC]".toList
               else "[TOC".toList ++ natStr lvl ++ "]".toList
             else "[TOC]".toList
           | none => "[TOC]".toList
         | _ => "[TOC]".toList
       | none => "[TOC]".toList) ++ "\n\n".toList := by
  simp only [renderBlock]
  rw [if_pos (by rw [htoc]; rfl)]

/-- On a `div.admonition` node (that is not also `div.toc` or
`div.codeblock`), `renderBlock` reduces to the admonition branch of the
source. -/
theorem renderBlock_admon (attrs : List (Str × Str)) (children : List Node)
    (ctx : Ctx)
    (hadm : (classesOf (Node.elem "div".toList attrs children)).contains
      "admonition".toList = true)
    (hntoc : (classesOf (Node.elem "div".toList attrs children)).contains
      "toc".toList = false)
    (hncode : (classesOf (Node.elem "div".toList attrs children)).contains
      "codeblock".toList = false) :
    renderBlock (Node.elem "div".toList attrs children) ctx =
      (if (pyStrip (joinWith "\n".toList
            ((admonBodyParts children ctx).filter
              (fun p => !(pyStrip p).isEmpty)))).isEmpty then
        "!!! ".toList ++ admonKind (classesOf (Node.elem "div".toList attrs
            children)) ++
          (if (match children.find? (fun c => isElemNamed c "p".toList &&
                (classesOf c).contains "admonition-title".toList) with
              | some t => pyStrip (renderChildrenInlines t ctx)
              | none => []).isEmpty then []
           else " ".toList ++
             (match children.find? (fun c => isElemNamed c "p".toList &&
                  (classesOf c).contains "admonition-title".toList) with
              | some t => pyStrip (renderChildrenInlines t ctx)
              | none => [])) ++ "\n\n".toList
      else
        "!!! ".toList ++ admonKind (classesOf (Node.elem "div".toList attrs
            children)) ++
          (if (match children.find? (fun c => isElemNamed c "p".toList &&
                (classesOf c).contains "admonition-title".toList) with
              | some t => pyStrip (renderChildrenInlines t ctx)
              | none => []).isEmpty then []
           else " ".toList ++
             (match children.find? (fun c => isElemNamed c "p".toList &&
                  (classesOf c).contains "admonition-title".toList) with
              | some t => pyStrip (renderChildrenInlines t ctx)
              | none => [])) ++ "\n".toList ++
          indentLines (pyStrip (joinWith "\n".toList
            ((admonBodyParts children ctx).filter
              (fun p => !(pyStrip p).isEmpty)))) 4 ++ "\n\n".toList) := by
  simp only [renderBlock]
  rw [if_neg (by rw [hntoc]; simp), if_neg (by rw [hncode]; simp),
    if_pos (by rw [hadm]; rfl)]

/-! Consistency of the transcription, and sanity checks of the embedding on
the scenarios of the specification. -/

/-- A node named `table` always reaches the table branch of the block
dispatcher, whatever its classes: transcribing the `ntable-wrapper` branch
(which re-dispatches the found `table` element in the source) as a direct
`renderTable` call is therefore semantics-preserving. -/
theorem renderBlock_table (attrs : List (Str × Str)) (children : List Node)
    (ctx : Ctx) :
    renderBlock (Node.elem "table".toList attrs children) ctx =
      renderTable (Node.elem "table".toList attrs children) ctx := by
  simp only [renderBlock]
  rfl

/-- The block dispatcher sends `ul` nodes to the list renderer. -/
theorem renderBlock_ul (attrs : List (Str × Str)) (children : List Node)
    (ctx : Ctx) :
    renderBlock (Node.elem "ul".toList attrs children) ctx =
      renderList (Node.elem "ul".toList attrs children) ctx := by
  simp only [renderBlock, renderList, renderListLines]
  rfl

/-- The block dispatcher sends `ol` nodes to the list renderer. -/
theorem renderBlock_ol (attrs : List (Str × Str)) (children : List Node)
    (ctx : Ctx) :
    renderBlock (Node.elem "ol".toList attrs children) ctx =
      renderList (Node.elem "ol".toList attrs children) ctx := by
  simp only [renderBlock, renderList, renderListLines]
  rfl

/-- Sanity: the paragraph scenario `<p>Hello <b>world</b></p>` of the
specification renders as `Hello **world**\n\n`. -/
theorem paragraph_scenario : renderBlock exP ctx0 =
    "Hello **world**\n\n".toList := by
  rfl

/-- Sanity: end to end, the one-paragraph document archives to
`Hello **world**\n`. -/
theorem archive_paragraph_scenario : archiveE exSoupP =
    Except.ok "Hello **world**\n".toList := by
  rfl

/-- Sanity: the right-aligned table scenario of the specification. -/
theorem table_align_scenario : renderTable exTbl3 ctx0 =
    "| N |\n| ---: |\n| 1 |\n\n".toList := by
  rfl

/-- Sanity: a run of four newlines collapses to exactly two. -/
theorem collapse_scenario : collapseRuns "a\n\n\n\nb".toList =
    "a\n\nb".toList := by
  rfl

/-! The claim theorems. -/

/-- C1 (counterexample): for `<ul><li>A<ul><li>B</li></ul></li></ul>` at
list depth 0 the list renderer emits `- A\n\n      - B\n\n` — with a blank
line and a six-space nested marker column — and not the claimed
`- A\n  - B\n\n`. -/
theorem c1_nested_list_counterexample :
    renderList exUl ctx0 = "- A\n\n      - B\n\n".toList ∧
    renderList exUl ctx0 ≠ "- A\n  - B\n\n".toList := by
  constructor
  · rfl
  · decide

/-- C1 (amended): for the input list `<ul><li>A<ul><li>B</li></ul></li></ul>`
rendered at list depth 0, the list renderer produces exactly
`- A\n\n      - B\n\n`: a blank line separates the parent's content line from
the nested item's marker line, and the nested marker column is indented six
spaces relative to the parent marker (the nested list's own four-space depth
indent plus the parent's two-space continuation indent). -/
theorem c1_nested_list_rendering :
    renderList exUl ctx0 = "- A\n\n      - B\n\n".toList := by
  rfl

/-- C2 (counterexample): in the depth-0 rendering of
`<ul><li>A<ul><li>B</li></ul></li></ul>`, the nested list's marker line
`      - B` starts at indentation 6, which is neither the claimed
continuation column `4·0 + 2 = 2` nor the claimed nested marker column
`4·(0+1) = 4`. -/
theorem c2_indent_counterexample :
    renderListLines exUl ctx0 = ["- A".toList, [], "      - B".toList] ∧
    leadingSpaces "      - B".toList = 6 ∧
    (6 : Nat) ≠ 4 * 0 + 2 ∧ (6 : Nat) ≠ 4 * (0 + 1) := by
  refine ⟨by decide, by decide, by decide, by decide⟩

/-- C2 (amended): every line produced by the list renderer at list depth `d`
is blank, or is an item's first content line indented exactly `4·d` spaces and
beginning with the item marker, or is a continuation line indented at least
`4·d + 2` spaces (nested lists carry their own additional marker-column
indentation on top of the continuation indent, so `4·d + 2` is exact only for
paragraph continuations, not for nested-list lines). -/
theorem c2_list_indentation (n : Node) (ctx : Ctx) (l : Str)
    (hl : l ∈ renderListLines n ctx) :
    l = [] ∨
      (leadingSpaces l = 4 * ctx.list_depth ∧
        ∃ i rest, l = List.replicate (4 * ctx.list_depth) ' ' ++
          markerStr (lowerStr (nameOf n) == "ol".toList) i ++ " ".toList ++ rest) ∨
      4 * ctx.list_depth + 2 ≤ leadingSpaces l := by
  rw [renderListLines] at hl
  exact renderListItems_indent _ _ _ _ _ hl

/-- Witness for C2: the marker line `- A` of the concrete nested list is a
member of the rendered lines and satisfies the indentation disjunction. -/
theorem c2_list_indentation_witness :
    ("- A".toList ∈ renderListLines exUl ctx0) ∧
    ("- A".toList = [] ∨
      (leadingSpaces "- A".toList = 4 * ctx0.list_depth ∧
        ∃ i rest, "- A".toList = List.replicate (4 * ctx0.list_depth) ' ' ++
          markerStr (lowerStr (nameOf exUl) == "ol".toList) i ++ " ".toList ++
          rest) ∨
      4 * ctx0.list_depth + 2 ≤ leadingSpaces "- A".toList) :=
  ⟨by decide, c2_list_indentation exUl ctx0 "- A".toList (by decide)⟩

/-- C3 (counterexample): on a document with an empty `body`, `archive`
succeeds and returns the single-character string `"\n"`, which begins with a
whitespace character — so the returned string is not always free of leading
whitespace. -/
theorem c3_leading_ws_counterexample :
    archiveE exEmptySoup = Except.ok ['\n'] ∧ isPyWs '\n' = true := by
  constructor
  · rfl
  · rfl

/-- C3 (amended): for every located content root, the archive output contains
no run of three or more consecutive newlines and ends with exactly one
trailing newline; it has no leading whitespace except in the degenerate case
where the document renders to nothing, in which case the output is exactly
one newline. -/
theorem c3_archive_output_shape (article : Node) :
    (∀ u v, archiveFrom article ≠ u ++ '\n' :: '\n' :: '\n' :: v) ∧
    (∃ t, archiveFrom article = t ++ ['\n'] ∧ t.getLast? ≠ some '\n') ∧
    (archiveFrom article = ['\n'] ∨
      ∃ c t, archiveFrom article = c :: t ∧ isPyWs c = false) := by
  refine ⟨?_, ?_, ?_⟩
  · intro u v heq
    have htrip : hasTriple (archiveFrom article) = true :=
      (hasTriple_iff _).2 ⟨u, v, heq⟩
    have hfree : hasTriple (archiveFrom article) = false :=
      hasTriple_finalizeText _
    rw [htrip] at hfree
    cases hfree
  · exact ⟨pyStrip (collapseRuns (renderChildrenBlocks article
      { in_pre := false, list_depth := 0, in_heading := false,
        heading_id_level := buildHeadingMap article })), rfl,
      pyStrip_getLast_ne_nl _⟩
  · cases ht : pyStrip (collapseRuns (renderChildrenBlocks article
        { in_pre := false, list_depth := 0, in_heading := false,
          heading_id_level := buildHeadingMap article })) with
    | nil =>
      left
      show pyStrip (collapseRuns (renderChildrenBlocks article _)) ++
        "\n".toList = ['\n']
      rw [ht]
      rfl
    | cons c t' =>
      right
      refine ⟨c, t' ++ ['\n'], ?_, ?_⟩
      · show pyStrip (collapseRuns (renderChildrenBlocks article _)) ++
          "\n".toList = c :: (t' ++ ['\n'])
        rw [ht]
        rfl
      · exact pyStrip_head _ c (by rw [ht]; rfl)

/-- Witness for C3: the archive output on a one-paragraph body, with the
no-triple-newline conclusion instantiated at the empty decomposition. -/
theorem c3_archive_output_shape_witness :
    archiveFrom (Node.elem "body".toList [] [exP]) =
      "Hello **world**\n".toList ∧
    archiveFrom (Node.elem "body".toList [] [exP]) ≠
      [] ++ '\n' :: '\n' :: '\n' :: [] :=
  ⟨by rfl, (c3_archive_output_shape (Node.elem "body".toList [] [exP])).1 [] []⟩

/-- C5 (counterexample): in
`<table><tr><td>a</td></tr><tr><td>b</td><td>c</td></tr></table>` the header
and separator rows have one cell each, but the data row renders with two
pipe-delimited cells — data rows are not forced to the header's cell count. -/
theorem c5_table_cells_counterexample :
    (tableHeaders exTbl ctx0).length = 1 ∧
    (tableAligns exTbl).length = 1 ∧
    dataRowStrings exTbl ctx0 = ["| b | c |".toList] ∧
    (tableDataRows exTbl).map (fun r => (dataRowVals r ctx0).length) = [2] ∧
    (2 : Nat) ≠ 1 := by
  refine ⟨by rfl, by rfl, by rfl, by rfl, by decide⟩

/-- C5 (amended): for every table, the separator row has exactly as many
cells as the header row (one marker per header cell); each data row renders
one pipe-delimited cell per `td`/`th` child of that row — a count that need
not equal the header's. -/
theorem c5_table_cell_counts (tbl : Node) (ctx : Ctx) :
    (tableAligns tbl).length = (tableHeaders tbl ctx).length ∧
    (tableDataRows tbl).map (fun r => (dataRowVals r ctx).length) =
      (tableDataRows tbl).map (fun r => (dataRowCellNodes r).length) := by
  constructor
  · rw [tableAligns, tableHeaders]
    cases tableRows tbl with
    | nil => rfl
    | cons r0 rest => simp
  · apply List.map_congr_left
    intro r _
    rw [dataRowVals, List.length_map]

/-- C6 (counterexample): a table-of-contents container whose first link
resolves to heading level 1 renders as `[TOC]`, not `[TOC1]` — so levels `n`
with `1 ≤ n ≤ 6` do not uniformly produce `[TOCn]`. -/
theorem c6_toc_level1_counterexample :
    renderBlock exToc { heading_id_level := [("x".toList, 1)] } =
      "[TOC]\n\n".toList ∧
    renderBlock exToc { heading_id_level := [("x".toList, 1)] } ≠
      "[TOC1]\n\n".toList := by
  constructor
  · rfl
  · decide

/-- C6 (amended): for a `div.toc` container, the block renderer emits
`[TOCn]` exactly when the first `href`-carrying link's target `#id` resolves
in the heading-id map to a level `n` with `2 ≤ n ≤ 6`; when there is no such
link, or the target does not resolve, it emits `[TOC]` (a level-1 target also
emits `[TOC]`, covered by C10).  In particular `<h2 id="x">` plus a TOC link
to `#x` yields `[TOC2]`. -/
theorem c6_toc_marker (attrs : List (Str × Str)) (children : List Node)
    (ctx : Ctx)
    (htoc : (classesOf (Node.elem "div".toList attrs children)).contains
      "toc".toList = true) :
    ((descendants (Node.elem "div".toList attrs children)).find? (fun d =>
        isElemNamed d "a".toList && hasAttr d "href".toList) = none →
      renderBlock (Node.elem "div".toList attrs children) ctx =
        "[TOC]\n\n".toList) ∧
    (∀ a hid, (descendants (Node.elem "div".toList attrs children)).find?
        (fun d => isElemNamed d "a".toList && hasAttr d "href".toList) =
          some a →
      getAttrD a "href".toList = '#' :: hid →
      dictGet ctx.heading_id_level hid = none →
      renderBlock (Node.elem "div".toList attrs children) ctx =
        "[TOC]\n\n".toList) ∧
    (∀ a hid lvl, (descendants (Node.elem "div".toList attrs children)).find?
        (fun d => isElemNamed d "a".toList && hasAttr d "href".toList) =
          some a →
      getAttrD a "href".toList = '#' :: hid →
      dictGet ctx.heading_id_level hid = some lvl → 2 ≤ lvl → lvl ≤ 6 →
      renderBlock (Node.elem "div".toList attrs children) ctx =
        "[TOC".toList ++ natStr lvl ++ "]".toList ++ "\n\n".toList) := by
  refine ⟨?_, ?_, ?_⟩
  · intro hfind
    rw [renderBlock_toc attrs children ctx htoc]
    simp only [hfind]
    rfl
  · intro a hid hfind hhref hget
    rw [renderBlock_toc attrs children ctx htoc]
    simp only [hfind, hhref, hget]
    rfl
  · intro a hid lvl hfind hhref hget h2 h6
    rw [renderBlock_toc attrs children ctx htoc]
    simp only [hfind, hhref, hget]
    rw [if_pos (by simp only [Bool.and_eq_true, decide_eq_true_eq]; omega)]
    rw [if_neg (by simp only [beq_iff_eq]; omega)]

/-- Witness for C6: with the heading-id map built from
`<article><h2 id="x">Title</h2><div class="toc"><a href="#x">…</a></div></article>`,
the TOC block renders as `[TOC2]`. -/
theorem c6_toc_marker_witness :
    renderBlock exToc { heading_id_level := buildHeadingMap exArticle } =
      "[TOC".toList ++ natStr 2 ++ "]".toList ++ "\n\n".toList ∧
    "[TOC".toList ++ natStr 2 ++ "]".toList ++ "\n\n".toList =
      "[TOC2]\n\n".toList := by
  constructor
  · exact (c6_toc_marker [("class".toList, "toc".toList)] [exTocA]
      { heading_id_level := buildHeadingMap exArticle } (by rfl)).2.2
      exTocA "x".toList 2 (by rfl) (by rfl) (by rfl) (by omega) (by omega)
  · rfl

/-- C10: for a `div.toc` container whose first link resolves to level 1, the
marker is `[TOC]` (not `[TOC1]`); the numbered `[TOCn]` form appears only for
resolved levels 2 through 6. -/
theorem c10_toc_level_numbering (attrs : List (Str × Str))
    (children : List Node) (ctx : Ctx) (a : Node) (hid : Str)
    (htoc : (classesOf (Node.elem "div".toList attrs children)).contains
      "toc".toList = true)
    (hfind : (descendants (Node.elem "div".toList attrs children)).find?
      (fun d => isElemNamed d "a".toList && hasAttr d "href".toList) = some a)
    (hhref : getAttrD a "href".toList = '#' :: hid) :
    (dictGet ctx.heading_id_level hid = some 1 →
      renderBlock (Node.elem "div".toList attrs children) ctx =
        "[TOC]\n\n".toList) ∧
    (∀ lvl, dictGet ctx.heading_id_level hid = some lvl → 2 ≤ lvl → lvl ≤ 6 →
      renderBlock (Node.elem "div".toList attrs children) ctx =
        "[TOC".toList ++ natStr lvl ++ "]".toList ++ "\n\n".toList) := by
  constructor
  · intro hget
    rw [renderBlock_toc attrs children ctx htoc]
    simp only [hfind, hhref, hget]
    rfl
  · intro lvl hget h2 h6
    rw [renderBlock_toc attrs children ctx htoc]
    simp only [hfind, hhref, hget]
    rw [if_pos (by simp only [Bool.and_eq_true, decide_eq_true_eq]; omega)]
    rw [if_neg (by simp only [beq_iff_eq]; omega)]

/-- Witness for C10: a level-1 target yields `[TOC]`. -/
theorem c10_toc_level_numbering_witness :
    renderBlock exToc { heading_id_level := [("x".toList, 1)] } =
      "[TOC]\n\n".toList :=
  (c10_toc_level_numbering [("class".toList, "toc".toList)] [exTocA]
    { heading_id_level := [("x".toList, 1)] } exTocA "x".toList (by rfl)
    (by rfl) (by rfl)).1 (by rfl)

/-- C7: admonition rendering.  The scenario
`<div class="admonition warning"><p class="admonition-title">Careful</p><p>Body</p></div>`
renders as `!!! warning Careful\n    Body\n\n`; an admonition with no body
renders as just the header plus the blank-line separator; the kind is chosen
by the fixed priority order (`note` before `danger`, regardless of class
order), defaulting to `note`; and every admonition container (not also
carrying the `toc`/`codeblock` classes, which take dispatch priority) renders
with the header prefix `!!! <kind>`. -/
theorem c7_admonition_rendering :
    renderBlock exAdmon ctx0 = "!!! warning Careful\n    Body\n\n".toList ∧
    renderBlock exAdmonEmpty ctx0 = "!!! note\n\n".toList ∧
    admonKind ["admonition".toList, "danger".toList, "note".toList] =
      "note".toList ∧
    (∀ attrs children ctx,
      (classesOf (Node.elem "div".toList attrs children)).contains
        "admonition".toList = true →
      (classesOf (Node.elem "div".toList attrs children)).contains
        "toc".toList = false →
      (classesOf (Node.elem "div".toList attrs children)).contains
        "codeblock".toList = false →
      ∃ t, renderBlock (Node.elem "div".toList attrs children) ctx =
        "!!! ".toList ++ admonKind (classesOf (Node.elem "div".toList attrs
          children)) ++ t) := by
  refine ⟨by rfl, by rfl, by decide, ?_⟩
  intro attrs children ctx hadm hntoc hncode
  rw [renderBlock_admon attrs children ctx hadm hntoc hncode]
  generalize (match children.find? (fun c => isElemNamed c "p".toList &&
      (classesOf c).contains "admonition-title".toList) with
    | some t => pyStrip (renderChildrenInlines t ctx)
    | none => ([] : Str)) = T
  by_cases hbody : (pyStrip (joinWith "\n".toList
      ((admonBodyParts children ctx).filter
        (fun p => !(pyStrip p).isEmpty)))).isEmpty = true
  · rw [if_pos hbody]
    exact ⟨(if T.isEmpty then [] else " ".toList ++ T) ++ "\n\n".toList,
      by simp only [List.append_assoc]⟩
  · rw [if_neg hbody]
    exact ⟨(if T.isEmpty then [] else " ".toList ++ T) ++ "\n".toList ++
      indentLines (pyStrip (joinWith "\n".toList
        ((admonBodyParts children ctx).filter
          (fun p => !(pyStrip p).isEmpty)))) 4 ++ "\n\n".toList,
      by simp only [List.append_assoc]⟩

/-- Witness for C7: the general header-prefix statement applied to the
concrete warning admonition. -/
theorem c7_admonition_rendering_witness :
    ∃ t, renderBlock (Node.elem "div".toList
        [("class".toList, "admonition warning".toList)]
        [exAdmonTitle, exAdmonBody]) ctx0 =
      "!!! ".toList ++ admonKind (classesOf (Node.elem "div".toList
        [("class".toList, "admonition warning".toList)]
        [exAdmonTitle, exAdmonBody])) ++ t :=
  c7_admonition_rendering.2.2.2 [("class".toList, "admonition warning".toList)]
    [exAdmonTitle, exAdmonBody] ctx0 (by rfl) (by rfl) (by rfl)

/-- C8: the rendering engine is a total function in this embedding, and the
archive operation fails exactly when the content-root fallback chain finds no
root: it succeeds (with the rendered text) if and only if a root is located,
and it reports the `Could not locate main content area` error if and only if
no root is located — before any rendering is attempted. -/
theorem c8_archive_error_iff_no_root (soup : Node) :
    ((∃ s, archiveE soup = Except.ok s) ↔
      (∃ a, locateArticle soup = some a)) ∧
    (archiveE soup = Except.error "Could not locate main content area".toList ↔
      locateArticle soup = none) := by
  cases h : locateArticle soup with
  | none =>
    constructor
    · constructor
      · intro ⟨s, hs⟩
        rw [archiveE, h] at hs
        cases hs
      · intro ⟨a, ha⟩
        cases ha
    · constructor
      · intro _
        rfl
      · intro _
        rw [archiveE, h]
  | some a =>
    constructor
    · constructor
      · intro _
        exact ⟨a, rfl⟩
      · intro _
        exact ⟨archiveFrom a, by rw [archiveE, h]⟩
    · constructor
      · intro hs
        rw [archiveE, h] at hs
        cases hs
      · intro hn
        cases hn

/-- C9: table newline escaping is asymmetric.  Every rendered data row is
free of physical newlines (each data cell's newlines are escaped to the
two-character text `\n`), while a line-break element inside a first-row cell
leaves a real newline in the header row, which therefore spans two physical
lines, as the concrete table
`<table><tr><th>a<br>b</th></tr><tr><td>c<br>d</td></tr></table>` shows. -/
theorem c9_table_newline_asymmetry :
    (∀ tbl ctx row, row ∈ dataRowStrings tbl ctx → '\n' ∉ row) ∧
    renderTable exTbl2 ctx0 = "| a\nb |\n| --- |\n| c\\nd |\n\n".toList ∧
    '\n' ∈ tableRowLine (tableHeaders exTbl2 ctx0) := by
  refine ⟨fun tbl ctx row h => dataRowStrings_no_nl tbl ctx row h, by rfl,
    by decide⟩

/-- Witness for C9: the concrete escaped data row `| c\nd |` (with a literal
backslash-n) is a rendered data row and contains no newline character. -/
theorem c9_table_newline_asymmetry_witness :
    ("| c\\nd |".toList ∈ dataRowStrings exTbl2 ctx0) ∧
    '\n' ∉ "| c\\nd |".toList :=
  ⟨by decide, c9_table_newline_asymmetry.1 exTbl2 ctx0 "| c\\nd |".toList
    (by decide)⟩

end Rentry
